import Mathlib

/-!
Shallow embedding of `src/server/src/diagnostics.ts` from bouzuya/vscode-deno.

The file models:
  * the data carried by diagnostics (`Position`, `Range`, `Diagnostic`,
    `DiagnosticCode`, `DiagnosticSeverity`);
  * the static fix table `FixItems` and the `onCodeAction` handler of the
    `Diagnostics` constructor;
  * the module-reference extraction (`delintNode`) over an abstracted
    TypeScript syntax tree (`TsNode`);
  * the per-reference checks and the `generate` loop, with the external
    services (`deno.resolveModule`, `ts.sys.fileExists`) passed in as an
    explicit record, and the possibility that `resolveModule` rejects
    modelled with `Except`.

JavaScript regular-expression tests are translated character-by-character:
`/^\..+/`, `/^https?:\/\/.*/`, `/^https:\/\//` and `/\.[a-zA-Z\d]+$/`,
with `.` matching every character except the four JS line terminators.
-/

namespace VscodeDeno

/-- An LSP position, `{ line, character }`.  JS numbers are modelled as `Int`
so that the arithmetic done by the code action handler is exact. -/
structure Position where
  line : Int
  character : Int
deriving DecidableEq, Repr

/-- An LSP range, `{ start, end }`. -/
structure Range where
  start : Position
  «end» : Position
deriving DecidableEq, Repr

/-- The severity values used by the code (`DiagnosticSeverity.Error` /
`DiagnosticSeverity.Warning`). -/
inductive DiagnosticSeverity where
  | Error
  | Warning
deriving DecidableEq, Repr

/-- `enum DiagnosticCode` of diagnostics.ts. -/
inductive DiagnosticCode where
  | InvalidModule
  | MissingExtension
  | PreferHTTPS
  | LocalModuleNotExist
  | RemoteModuleNotExist
deriving DecidableEq, Repr

/-- The numeric value each member of `enum DiagnosticCode` carries. -/
def DiagnosticCode.toNumber : DiagnosticCode → Nat
  | .InvalidModule => 1001
  | .MissingExtension => 1002
  | .PreferHTTPS => 1003
  | .LocalModuleNotExist => 1004
  | .RemoteModuleNotExist => 1005

/-- A diagnostic as built by `Diagnostic.create(range, message, severity,
code, this.name)`. -/
structure Diagnostic where
  range : Range
  message : String
  severity : DiagnosticSeverity
  code : DiagnosticCode
  source : String
deriving DecidableEq, Repr

/-- `interface Fix { title: string; command: string }`. -/
structure Fix where
  title : String
  command : String
deriving DecidableEq, Repr

/-- `const FixItems: { [code: number]: Fix }`: the static fix table.  A code
with no entry in the object literal yields `undefined`, modelled as `none`. -/
def FixItems : DiagnosticCode → Option Fix
  | .MissingExtension => some ⟨"Add `.ts` extension.", "deno._add_missing_extension"⟩
  | .PreferHTTPS => some ⟨"Use HTTPS module.", "deno._use_https_module"⟩
  | .LocalModuleNotExist => some ⟨"Create module.", "deno._create_local_module"⟩
  | .RemoteModuleNotExist => some ⟨"Fetch module.", "deno._fetch_remote_module"⟩
  | .InvalidModule => none

/-- The result of `deno.resolveModule`: `{ raw, filepath, remote }`. -/
structure ResolvedModule where
  raw : String
  filepath : String
  remote : Bool
deriving DecidableEq, Repr

/-- The external collaborators of `Diagnostics.generate`:
`deno.resolveModule(dir, text)` (an async call that may reject, hence
`Except String`) and `ts.sys.fileExists(filepath)`. -/
structure ExternalServices where
  resolveModule : String → String → Except String ResolvedModule
  fileExists : String → Bool

/-- A `ts.LiteralLikeNode` as used by the diagnostics loop: its full start
`pos` (leading trivia included), its `end`, and its unquoted `text`. -/
structure LiteralLikeNode where
  pos : Nat
  «end» : Nat
  text : String
deriving DecidableEq, Repr

/-- In a JS regular expression without the `s` flag, `.` matches every
character except the four line terminators. -/
def isJsDotChar (c : Char) : Bool :=
  !(c = '\n' || c = '\r' || c = '\u2028' || c = '\u2029')

/-- `/^\..+/.test(text)`: a leading `.` followed by at least one
non-line-terminator character. -/
def isRelativeModule (s : String) : Bool :=
  match s.data with
  | '.' :: c :: _ => isJsDotChar c
  | _ => false

/-- An anchored literal-prefix test over the character sequences (the
anchored part of a JS regex test). -/
def charsStartWith : List Char → List Char → Bool
  | [], _ => true
  | _ :: _, [] => false
  | pc :: pr, sc :: sr => pc = sc && charsStartWith pr sr

/-- `/^https?:\/\/.*/.test(text)`: the trailing `.*` matches the empty
string, so the test holds exactly when the text starts with `http://` or
`https://`. -/
def isRemoteModule (s : String) : Bool :=
  charsStartWith "http://".data s.data || charsStartWith "https://".data s.data

/-- `/^https:\/\//.test(text)`. -/
def startsWithHttps (s : String) : Bool :=
  charsStartWith "https://".data s.data

/-- The character class `[a-zA-Z\d]` of the extension regular expression. -/
def isExtensionChar (c : Char) : Bool :=
  ('a' ≤ c && c ≤ 'z') || ('A' ≤ c && c ≤ 'Z') || ('0' ≤ c && c ≤ '9')

/-- `text.match(/\.[a-zA-Z\d]+$/)`: the match, when it exists, is a dot
followed by the maximal non-empty run of `[a-zA-Z\d]` characters that ends
the string. -/
def extensionName (s : String) : Option String :=
  let rev := s.data.reverse
  let run := rev.takeWhile isExtensionChar
  if run.isEmpty then none
  else
    match rev.drop run.length with
    | '.' :: _ => some (String.mk ('.' :: run.reverse))
    | _ => none

/-- `validExtensionNameMap` of `Diagnostics.generate`. -/
def validExtensionNameMap (s : String) : Bool :=
  s = ".ts" || s = ".tsx" || s = ".js" || s = ".jsx" || s = ".json" || s = ".wasm"

/-- `validExtensionNameMap[extensionName]` where `extensionName` may be
`undefined` (no regex match): an absent key or an absent match is falsy. -/
def hasValidExtension (s : String) : Bool :=
  match extensionName s with
  | some e => validExtensionNameMap e
  | none => false

/-- `Math.abs(moduleNode.end - moduleNode.pos - (moduleNode.text.length + 2))`. -/
def numberOfSpaces (node : LiteralLikeNode) : Nat :=
  ((node.«end» : Int) - (node.pos : Int) - ((node.text.length : Int) + 2)).natAbs

/-- The offset handed to `document.positionAt` for the range start:
`moduleNode.pos + numberOfSpaces`. -/
def rangeStartOffset (node : LiteralLikeNode) : Nat :=
  node.pos + numberOfSpaces node

/-- The offset handed to `document.positionAt` for the range end:
`moduleNode.end`. -/
def rangeEndOffset (node : LiteralLikeNode) : Nat :=
  node.«end»

/-- `Range.create(document.positionAt(pos + numberOfSpaces),
document.positionAt(end))`, with `document.positionAt` abstracted to a
function `posAt` from offsets to positions. -/
def rangeOfNode (posAt : Nat → Position) (node : LiteralLikeNode) : Range :=
  ⟨posAt (rangeStartOffset node), posAt (rangeEndOffset node)⟩

/-- The first `if` of the loop body: push `InvalidModule` when the text is
neither relative-like nor remote-like. -/
def invalidModuleCheck (name : String) (range : Range) (text : String) : List Diagnostic :=
  if !isRelativeModule text && !isRemoteModule text then
    [⟨range, "Deno only supports importting `relative/HTTP` module.",
      .Error, .InvalidModule, name⟩]
  else []

/-- The second block of the loop body: push `MissingExtension` when
`validExtensionNameMap[extensionName]` is falsy. -/
def missingExtensionCheck (name : String) (range : Range) (text : String) : List Diagnostic :=
  if !hasValidExtension text then
    [⟨range, "Please specify valid extension name of the imported module.",
      .Error, .MissingExtension, name⟩]
  else []

/-- The third block: inside `if (isRemoteModule)`, push `PreferHTTPS` when
the text does not start with `https://`. -/
def preferHTTPSCheck (name : String) (range : Range) (text : String) : List Diagnostic :=
  if isRemoteModule text && !startsWithHttps text then
    [⟨range, "For security, we recommend using the HTTPS module.",
      .Warning, .PreferHTTPS, name⟩]
  else []

/-- The last block: after a successful `resolveModule`, push
`RemoteModuleNotExist`/`LocalModuleNotExist` when the resolved filepath does
not exist. -/
def existenceCheck (name : String) (env : ExternalServices) (range : Range)
    (m : ResolvedModule) : List Diagnostic :=
  if !env.fileExists m.filepath then
    [⟨range, "Cannot found module `" ++ m.raw ++ "`.",
      .Error, if m.remote then .RemoteModuleNotExist else .LocalModuleNotExist, name⟩]
  else []

/-- One iteration of the `for (const moduleNode of moduleNodes)` loop: the
three synchronous checks push in order, then `await deno.resolveModule` runs
with no surrounding try/catch, so a rejection aborts the whole call and the
pushes are lost. -/
def refDiagnostics (name : String) (env : ExternalServices) (dir : String)
    (posAt : Nat → Position) (node : LiteralLikeNode) : Except String (List Diagnostic) :=
  match env.resolveModule dir node.text with
  | .error e => .error e
  | .ok m =>
      .ok (invalidModuleCheck name (rangeOfNode posAt node) node.text ++
           missingExtensionCheck name (rangeOfNode posAt node) node.text ++
           preferHTTPSCheck name (rangeOfNode posAt node) node.text ++
           existenceCheck name env (rangeOfNode posAt node) m)

/-- The whole loop over the extracted module nodes, accumulating
`diagnosticsForThisDocument` in order; the first rejected resolution rejects
the whole `generate` call. -/
def generateRefs (name : String) (env : ExternalServices) (dir : String)
    (posAt : Nat → Position) : List LiteralLikeNode → Except String (List Diagnostic)
  | [] => .ok []
  | node :: rest =>
      match refDiagnostics name env dir posAt node with
      | .error e => .error e
      | .ok ds =>
          match generateRefs name env dir posAt rest with
          | .error e => .error e
          | .ok rs => .ok (ds ++ rs)

/-- The first argument of a call / a module specifier position: either a
string literal node or some other expression (`ts.isStringLiteral` fails). -/
inductive SyntaxArg where
  | stringLit (node : LiteralLikeNode)
  | nonString
deriving DecidableEq, Repr

/-- The slice of the TypeScript AST that `delintNode` dispatches on: the four
recognized `SyntaxKind`s with the fields the code reads, every other node
kind collapsed to `otherNode`.  Every node carries the child list that
`ts.forEachChild` visits. -/
inductive TsNode where
  | callExpression (calleeIsImportKeyword : Bool) (args : List SyntaxArg)
      (children : List TsNode)
  | importEqualsDeclaration (moduleRef : Option SyntaxArg) (children : List TsNode)
  | importDeclaration (moduleSpecifier : Option SyntaxArg) (children : List TsNode)
  | exportDeclaration (moduleSpecifier : Option SyntaxArg) (children : List TsNode)
  | otherNode (children : List TsNode)

/-- The `switch (node.kind)` of `delintNode`: the module node this node
itself contributes, if any. -/
def nodeModule : TsNode → Option LiteralLikeNode
  | .callExpression isImport args _ =>
      if isImport then
        match args.head? with
        | some (.stringLit n) => some n
        | _ => none
      else none
  | .importEqualsDeclaration (some (.stringLit n)) _ => some n
  | .importEqualsDeclaration _ _ => none
  | .importDeclaration (some (.stringLit n)) _ => some n
  | .importDeclaration _ _ => none
  | .exportDeclaration (some (.stringLit n)) _ => some n
  | .exportDeclaration _ _ => none
  | .otherNode _ => none

/-- The child list `ts.forEachChild(node, delintNode)` recurses into. -/
def childrenOf : TsNode → List TsNode
  | .callExpression _ _ ch => ch
  | .importEqualsDeclaration _ ch => ch
  | .importDeclaration _ ch => ch
  | .exportDeclaration _ ch => ch
  | .otherNode ch => ch

mutual

/-- `delintNode`: push this node's module node (if any), then recurse into
the children — a pre-order accumulation into `moduleNodes`. -/
def extract : TsNode → List LiteralLikeNode
  | .callExpression isImport args ch =>
      (nodeModule (.callExpression isImport args ch)).toList ++ extractList ch
  | .importEqualsDeclaration r ch =>
      (nodeModule (.importEqualsDeclaration r ch)).toList ++ extractList ch
  | .importDeclaration s ch =>
      (nodeModule (.importDeclaration s ch)).toList ++ extractList ch
  | .exportDeclaration s ch =>
      (nodeModule (.exportDeclaration s ch)).toList ++ extractList ch
  | .otherNode ch =>
      (nodeModule (.otherNode ch)).toList ++ extractList ch

/-- Extraction over a child list, in order. -/
def extractList : List TsNode → List LiteralLikeNode
  | [] => []
  | t :: ts => extract t ++ extractList ts

end

/-- `Diagnostics.generate` after the language/config gates: delint the tree,
then run the diagnostics loop over the extracted module nodes. -/
def generate (name : String) (env : ExternalServices) (dir : String)
    (posAt : Nat → Position) (tree : TsNode) : Except String (List Diagnostic) :=
  generateRefs name env dir posAt (extract tree)

/-- The action object built by the `onCodeAction` handler: the displayed
title, the command title and identifier, and the command's two arguments
(the document uri and the narrowed range). -/
structure CodeActionCmd where
  title : String
  commandTitle : String
  command : String
  argUri : String
  argRange : Range
deriving DecidableEq, Repr

/-- The body of the `.map` in `onCodeAction`: look the diagnostic's code up
in `FixItems`; with no fix return `undefined` (filtered out later), else
build the action whose command argument narrows the diagnostic's range by
one character on each side. -/
def codeActionForDiagnostic (name uri : String) (v : Diagnostic) : Option CodeActionCmd :=
  match FixItems v.code with
  | none => none
  | some fixItem =>
      some ⟨fixItem.title ++ " (" ++ name ++ ")",
            fixItem.title,
            fixItem.command,
            uri,
            ⟨⟨v.range.start.line, v.range.start.character + 1⟩,
             ⟨v.range.«end».line, v.range.«end».character - 1⟩⟩⟩

/-- The `onCodeAction` handler: keep the diagnostics whose `source` is this
producer's name, map each to its action, and drop the `undefined`s. -/
def onCodeAction (name uri : String) (diagnostics : List Diagnostic) : List CodeActionCmd :=
  (diagnostics.filter (fun v => v.source == name)).filterMap
    (codeActionForDiagnostic name uri)

/-- `positionAt` of a single-line document: the character is the offset. -/
def posId : Nat → Position := fun o => ⟨0, (o : Int)⟩

/-- A resolution service that always rejects, a filesystem where every path
exists. -/
def errorEnv : ExternalServices :=
  ⟨fun _ _ => .error "network error", fun _ => true⟩

/-- A resolution service that resolves every specifier to itself as a local
module, a filesystem where every path exists. -/
def okEnv : ExternalServices :=
  ⟨fun _ s => .ok ⟨s, s, false⟩, fun _ => true⟩

/-- A resolution service that resolves every specifier to the local path
`/d/a`, a filesystem where no path exists. -/
def missingEnv : ExternalServices :=
  ⟨fun _ s => .ok ⟨s, "/d/a", false⟩, fun _ => false⟩

/-- The diagnostics the loop produces for the bare specifier `"foo"` against
the always-resolving service. -/
def c3ds : List Diagnostic :=
  ((refDiagnostics "deno" okEnv "/d" posId ⟨0, 5, "foo"⟩).toOption).getD []

/-- The diagnostics the loop produces for `"./foo"` against the
always-resolving service. -/
def c4ds : List Diagnostic :=
  ((refDiagnostics "deno" okEnv "/d" posId ⟨0, 7, "./foo"⟩).toOption).getD []

/-- The diagnostics the loop produces for `"http://x.com/a.ts"` against the
always-resolving service. -/
def c5ds : List Diagnostic :=
  ((refDiagnostics "deno" okEnv "/d" posId ⟨0, 20, "http://x.com/a.ts"⟩).toOption).getD []

/-- The diagnostics the loop produces for `"x"` when the resolved local path
does not exist: invalid form, missing extension and local-not-found. -/
def c10ds : List Diagnostic :=
  ((refDiagnostics "deno" missingEnv "/d" posId ⟨0, 3, "x"⟩).toOption).getD []

/-- A concrete missing-extension diagnostic over the quoted span
(0,14)–(0,22). -/
def c8diag : Diagnostic :=
  ⟨⟨⟨0, 14⟩, ⟨0, 22⟩⟩, "Please specify valid extension name of the imported module.",
   DiagnosticSeverity.Error, DiagnosticCode.MissingExtension, "deno"⟩

/-- Inverting one loop iteration: a successful iteration means the
resolution succeeded and the result is the four check outputs in order. -/
theorem refDiagnostics_ok {name dir : String} {env : ExternalServices}
    {posAt : Nat → Position} {node : LiteralLikeNode} {ds : List Diagnostic}
    (h : refDiagnostics name env dir posAt node = Except.ok ds) :
    ∃ m, env.resolveModule dir node.text = Except.ok m ∧
      ds = invalidModuleCheck name (rangeOfNode posAt node) node.text ++
           missingExtensionCheck name (rangeOfNode posAt node) node.text ++
           preferHTTPSCheck name (rangeOfNode posAt node) node.text ++
           existenceCheck name env (rangeOfNode posAt node) m := by
  unfold refDiagnostics at h
  cases hres : env.resolveModule dir node.text with
  | error e => rw [hres] at h; exact absurd h (by simp)
  | ok m =>
      rw [hres] at h
      simp only [Except.ok.injEq] at h
      exact ⟨m, rfl, h.symm⟩

/-- A member of the invalid-module check output is the invalid-module
diagnostic, and the check's condition held. -/
theorem mem_invalidModuleCheck {d : Diagnostic} {name : String} {range : Range}
    {text : String} (h : d ∈ invalidModuleCheck name range text) :
    d = ⟨range, "Deno only supports importting `relative/HTTP` module.",
         .Error, .InvalidModule, name⟩ ∧
    isRelativeModule text = false ∧ isRemoteModule text = false := by
  unfold invalidModuleCheck at h
  split at h
  case isTrue hc =>
    simp only [Bool.and_eq_true, Bool.not_eq_true'] at hc
    simp only [List.mem_singleton] at h
    exact ⟨h, hc.1, hc.2⟩
  case isFalse _ => exact absurd h (List.not_mem_nil d)

/-- A member of the missing-extension check output is the missing-extension
diagnostic, and the check's condition held. -/
theorem mem_missingExtensionCheck {d : Diagnostic} {name : String} {range : Range}
    {text : String} (h : d ∈ missingExtensionCheck name range text) :
    d = ⟨range, "Please specify valid extension name of the imported module.",
         .Error, .MissingExtension, name⟩ ∧
    hasValidExtension text = false := by
  unfold missingExtensionCheck at h
  split at h
  case isTrue hc =>
    simp only [Bool.not_eq_true'] at hc
    simp only [List.mem_singleton] at h
    exact ⟨h, hc⟩
  case isFalse _ => exact absurd h (List.not_mem_nil d)

/-- A member of the prefer-https check output is the prefer-https
diagnostic, and the check's condition held. -/
theorem mem_preferHTTPSCheck {d : Diagnostic} {name : String} {range : Range}
    {text : String} (h : d ∈ preferHTTPSCheck name range text) :
    d = ⟨range, "For security, we recommend using the HTTPS module.",
         .Warning, .PreferHTTPS, name⟩ ∧
    isRemoteModule text = true ∧ startsWithHttps text = false := by
  unfold preferHTTPSCheck at h
  split at h
  case isTrue hc =>
    simp only [Bool.and_eq_true, Bool.not_eq_true'] at hc
    simp only [List.mem_singleton] at h
    exact ⟨h, hc.1, hc.2⟩
  case isFalse _ => exact absurd h (List.not_mem_nil d)

/-- A member of the existence check output is the not-found diagnostic whose
code is picked by the `remote` flag, and the file did not exist. -/
theorem mem_existenceCheck {d : Diagnostic} {name : String} {env : ExternalServices}
    {range : Range} {m : ResolvedModule} (h : d ∈ existenceCheck name env range m) :
    d = ⟨range, "Cannot found module `" ++ m.raw ++ "`.", .Error,
         if m.remote then .RemoteModuleNotExist else .LocalModuleNotExist, name⟩ ∧
    env.fileExists m.filepath = false := by
  unfold existenceCheck at h
  split at h
  case isTrue hc =>
    simp only [Bool.not_eq_true'] at hc
    simp only [List.mem_singleton] at h
    exact ⟨h, hc⟩
  case isFalse _ => exact absurd h (List.not_mem_nil d)

/-- When the text is neither relative-like nor remote-like, the
invalid-module check fires. -/
theorem invalidModuleCheck_eq_of {name : String} {range : Range} {text : String}
    (h1 : isRelativeModule text = false) (h2 : isRemoteModule text = false) :
    invalidModuleCheck name range text =
      [⟨range, "Deno only supports importting `relative/HTTP` module.",
        .Error, .InvalidModule, name⟩] := by
  unfold invalidModuleCheck
  rw [h1, h2]
  rfl

/-- When the text is relative-like, the invalid-module check is silent. -/
theorem invalidModuleCheck_eq_nil_of_relative {name : String} {range : Range}
    {text : String} (h : isRelativeModule text = true) :
    invalidModuleCheck name range text = [] := by
  unfold invalidModuleCheck
  rw [h]
  rfl

/-- When the text is remote-like, the invalid-module check is silent. -/
theorem invalidModuleCheck_eq_nil_of_remote {name : String} {range : Range}
    {text : String} (h : isRemoteModule text = true) :
    invalidModuleCheck name range text = [] := by
  unfold invalidModuleCheck
  rw [h]
  simp

/-- When the extension is absent or not allow-listed, the missing-extension
check fires. -/
theorem missingExtensionCheck_eq_of {name : String} {range : Range} {text : String}
    (h : hasValidExtension text = false) :
    missingExtensionCheck name range text =
      [⟨range, "Please specify valid extension name of the imported module.",
        .Error, .MissingExtension, name⟩] := by
  unfold missingExtensionCheck
  rw [h]
  rfl

/-- When the text is remote-like and does not start with `https://`, the
prefer-https check fires. -/
theorem preferHTTPSCheck_eq_of {name : String} {range : Range} {text : String}
    (h1 : isRemoteModule text = true) (h2 : startsWithHttps text = false) :
    preferHTTPSCheck name range text =
      [⟨range, "For security, we recommend using the HTTPS module.",
        .Warning, .PreferHTTPS, name⟩] := by
  unfold preferHTTPSCheck
  rw [h1, h2]
  rfl

/-- When the text is not remote-like, the prefer-https check is silent. -/
theorem preferHTTPSCheck_eq_nil_of_not_remote {name : String} {range : Range}
    {text : String} (h : isRemoteModule text = false) :
    preferHTTPSCheck name range text = [] := by
  unfold preferHTTPSCheck
  rw [h]
  rfl

/-- Each check's output has at most one element. -/
theorem length_invalidModuleCheck_le (name : String) (range : Range) (text : String) :
    (invalidModuleCheck name range text).length ≤ 1 := by
  unfold invalidModuleCheck
  split <;> simp

/-- The missing-extension check's output has at most one element. -/
theorem length_missingExtensionCheck_le (name : String) (range : Range) (text : String) :
    (missingExtensionCheck name range text).length ≤ 1 := by
  unfold missingExtensionCheck
  split <;> simp

/-- The prefer-https check's output has at most one element. -/
theorem length_preferHTTPSCheck_le (name : String) (range : Range) (text : String) :
    (preferHTTPSCheck name range text).length ≤ 1 := by
  unfold preferHTTPSCheck
  split <;> simp

/-- The existence check's output has at most one element. -/
theorem length_existenceCheck_le (name : String) (env : ExternalServices)
    (range : Range) (m : ResolvedModule) :
    (existenceCheck name env range m).length ≤ 1 := by
  unfold existenceCheck
  split <;> simp

/-- A successful iteration emits an `InvalidModule` diagnostic exactly when
the text is neither relative-like nor remote-like; such a diagnostic always
carries severity `Error`. -/
theorem refDiags_invalid_iff {name dir : String} {env : ExternalServices}
    {posAt : Nat → Position} {node : LiteralLikeNode} {ds : List Diagnostic}
    (h : refDiagnostics name env dir posAt node = Except.ok ds) :
    ((∃ d ∈ ds, d.code = DiagnosticCode.InvalidModule ∧ d.severity = DiagnosticSeverity.Error) ↔
      (isRelativeModule node.text = false ∧ isRemoteModule node.text = false)) ∧
    ((∃ d ∈ ds, d.code = DiagnosticCode.InvalidModule) ↔
      (isRelativeModule node.text = false ∧ isRemoteModule node.text = false)) := by
  obtain ⟨m, hres, hds⟩ := refDiagnostics_ok h
  subst hds
  have key : ∀ d, d ∈ invalidModuleCheck name (rangeOfNode posAt node) node.text ++
      missingExtensionCheck name (rangeOfNode posAt node) node.text ++
      preferHTTPSCheck name (rangeOfNode posAt node) node.text ++
      existenceCheck name env (rangeOfNode posAt node) m →
      d.code = DiagnosticCode.InvalidModule →
      d.severity = DiagnosticSeverity.Error ∧
      isRelativeModule node.text = false ∧ isRemoteModule node.text = false := by
    intro d hd hcode
    rcases List.mem_append.mp hd with hABC | hD
    swap
    · obtain ⟨hdEq, -⟩ := mem_existenceCheck hD
      subst hdEq
      cases hm : m.remote <;> rw [hm] at hcode <;> simp at hcode
    rcases List.mem_append.mp hABC with hAB | hC
    swap
    · obtain ⟨hdEq, -⟩ := mem_preferHTTPSCheck hC
      subst hdEq
      simp at hcode
    rcases List.mem_append.mp hAB with hA | hB
    · obtain ⟨hdEq, h1, h2⟩ := mem_invalidModuleCheck hA
      subst hdEq
      exact ⟨rfl, h1, h2⟩
    · obtain ⟨hdEq, -⟩ := mem_missingExtensionCheck hB
      subst hdEq
      simp at hcode
  constructor
  · constructor
    · rintro ⟨d, hd, hcode, -⟩
      exact (key d hd hcode).2
    · rintro ⟨h1, h2⟩
      refine ⟨⟨rangeOfNode posAt node,
        "Deno only supports importting `relative/HTTP` module.",
        DiagnosticSeverity.Error, DiagnosticCode.InvalidModule, name⟩, ?_, rfl, rfl⟩
      rw [invalidModuleCheck_eq_of h1 h2]
      exact List.mem_append_left _ (List.mem_append_left _
        (List.mem_append_left _ (List.mem_singleton_self _)))
  · constructor
    · rintro ⟨d, hd, hcode⟩
      exact (key d hd hcode).2
    · rintro ⟨h1, h2⟩
      refine ⟨⟨rangeOfNode posAt node,
        "Deno only supports importting `relative/HTTP` module.",
        DiagnosticSeverity.Error, DiagnosticCode.InvalidModule, name⟩, ?_, rfl⟩
      rw [invalidModuleCheck_eq_of h1 h2]
      exact List.mem_append_left _ (List.mem_append_left _
        (List.mem_append_left _ (List.mem_singleton_self _)))

/-- A successful iteration emits a `MissingExtension` diagnostic exactly when
`validExtensionNameMap[extensionName]` is falsy; such a diagnostic always
carries severity `Error`. -/
theorem refDiags_missingExtension_iff {name dir : String} {env : ExternalServices}
    {posAt : Nat → Position} {node : LiteralLikeNode} {ds : List Diagnostic}
    (h : refDiagnostics name env dir posAt node = Except.ok ds) :
    ((∃ d ∈ ds, d.code = DiagnosticCode.MissingExtension ∧ d.severity = DiagnosticSeverity.Error) ↔
      hasValidExtension node.text = false) ∧
    ((∃ d ∈ ds, d.code = DiagnosticCode.MissingExtension) ↔
      hasValidExtension node.text = false) := by
  obtain ⟨m, hres, hds⟩ := refDiagnostics_ok h
  subst hds
  have key : ∀ d, d ∈ invalidModuleCheck name (rangeOfNode posAt node) node.text ++
      missingExtensionCheck name (rangeOfNode posAt node) node.text ++
      preferHTTPSCheck name (rangeOfNode posAt node) node.text ++
      existenceCheck name env (rangeOfNode posAt node) m →
      d.code = DiagnosticCode.MissingExtension →
      d.severity = DiagnosticSeverity.Error ∧ hasValidExtension node.text = false := by
    intro d hd hcode
    rcases List.mem_append.mp hd with hABC | hD
    swap
    · obtain ⟨hdEq, -⟩ := mem_existenceCheck hD
      subst hdEq
      cases hm : m.remote <;> rw [hm] at hcode <;> simp at hcode
    rcases List.mem_append.mp hABC with hAB | hC
    swap
    · obtain ⟨hdEq, -⟩ := mem_preferHTTPSCheck hC
      subst hdEq
      simp at hcode
    rcases List.mem_append.mp hAB with hA | hB
    · obtain ⟨hdEq, -⟩ := mem_invalidModuleCheck hA
      subst hdEq
      simp at hcode
    · obtain ⟨hdEq, hext⟩ := mem_missingExtensionCheck hB
      subst hdEq
      exact ⟨rfl, hext⟩
  have mk : hasValidExtension node.text = false →
      ∃ d ∈ invalidModuleCheck name (rangeOfNode posAt node) node.text ++
        missingExtensionCheck name (rangeOfNode posAt node) node.text ++
        preferHTTPSCheck name (rangeOfNode posAt node) node.text ++
        existenceCheck name env (rangeOfNode posAt node) m,
        d.code = DiagnosticCode.MissingExtension ∧
        d.severity = DiagnosticSeverity.Error := by
    intro hext
    refine ⟨⟨rangeOfNode posAt node,
      "Please specify valid extension name of the imported module.",
      DiagnosticSeverity.Error, DiagnosticCode.MissingExtension, name⟩, ?_, rfl, rfl⟩
    refine List.mem_append_left _ (List.mem_append_left _ (List.mem_append_right _ ?_))
    rw [missingExtensionCheck_eq_of hext]
    exact List.mem_singleton_self _
  constructor
  · constructor
    · rintro ⟨d, hd, hcode, -⟩
      exact (key d hd hcode).2
    · exact mk
  · constructor
    · rintro ⟨d, hd, hcode⟩
      exact (key d hd hcode).2
    · intro hext
      obtain ⟨d, hd, hcode, -⟩ := mk hext
      exact ⟨d, hd, hcode⟩

/-- A successful iteration emits a `PreferHTTPS` diagnostic exactly when the
text is remote-like and does not start with `https://`; such a diagnostic
always carries severity `Warning`. -/
theorem refDiags_preferHTTPS_iff {name dir : String} {env : ExternalServices}
    {posAt : Nat → Position} {node : LiteralLikeNode} {ds : List Diagnostic}
    (h : refDiagnostics name env dir posAt node = Except.ok ds) :
    ((∃ d ∈ ds, d.code = DiagnosticCode.PreferHTTPS ∧ d.severity = DiagnosticSeverity.Warning) ↔
      (isRemoteModule node.text = true ∧ startsWithHttps node.text = false)) ∧
    ((∃ d ∈ ds, d.code = DiagnosticCode.PreferHTTPS) ↔
      (isRemoteModule node.text = true ∧ startsWithHttps node.text = false)) := by
  obtain ⟨m, hres, hds⟩ := refDiagnostics_ok h
  subst hds
  have key : ∀ d, d ∈ invalidModuleCheck name (rangeOfNode posAt node) node.text ++
      missingExtensionCheck name (rangeOfNode posAt node) node.text ++
      preferHTTPSCheck name (rangeOfNode posAt node) node.text ++
      existenceCheck name env (rangeOfNode posAt node) m →
      d.code = DiagnosticCode.PreferHTTPS →
      d.severity = DiagnosticSeverity.Warning ∧
      isRemoteModule node.text = true ∧ startsWithHttps node.text = false := by
    intro d hd hcode
    rcases List.mem_append.mp hd with hABC | hD
    swap
    · obtain ⟨hdEq, -⟩ := mem_existenceCheck hD
      subst hdEq
      cases hm : m.remote <;> rw [hm] at hcode <;> simp at hcode
    rcases List.mem_append.mp hABC with hAB | hC
    swap
    · obtain ⟨hdEq, h1, h2⟩ := mem_preferHTTPSCheck hC
      subst hdEq
      exact ⟨rfl, h1, h2⟩
    rcases List.mem_append.mp hAB with hA | hB
    · obtain ⟨hdEq, -⟩ := mem_invalidModuleCheck hA
      subst hdEq
      simp at hcode
    · obtain ⟨hdEq, -⟩ := mem_missingExtensionCheck hB
      subst hdEq
      simp at hcode
  have mk : isRemoteModule node.text = true → startsWithHttps node.text = false →
      ∃ d ∈ invalidModuleCheck name (rangeOfNode posAt node) node.text ++
        missingExtensionCheck name (rangeOfNode posAt node) node.text ++
        preferHTTPSCheck name (rangeOfNode posAt node) node.text ++
        existenceCheck name env (rangeOfNode posAt node) m,
        d.code = DiagnosticCode.PreferHTTPS ∧
        d.severity = DiagnosticSeverity.Warning := by
    intro h1 h2
    refine ⟨⟨rangeOfNode posAt node,
      "For security, we recommend using the HTTPS module.",
      DiagnosticSeverity.Warning, DiagnosticCode.PreferHTTPS, name⟩, ?_, rfl, rfl⟩
    refine List.mem_append_left _ (List.mem_append_right _ ?_)
    rw [preferHTTPSCheck_eq_of h1 h2]
    exact List.mem_singleton_self _
  constructor
  · constructor
    · rintro ⟨d, hd, hcode, -⟩
      exact (key d hd hcode).2
    · rintro ⟨h1, h2⟩
      exact mk h1 h2
  · constructor
    · rintro ⟨d, hd, hcode⟩
      exact (key d hd hcode).2
    · rintro ⟨h1, h2⟩
      obtain ⟨d, hd, hcode, -⟩ := mk h1 h2
      exact ⟨d, hd, hcode⟩

/-- A successful iteration never emits both not-found codes: the single
existence push picks its code from the resolved module's `remote` flag. -/
theorem refDiags_not_both_notFound {name dir : String} {env : ExternalServices}
    {posAt : Nat → Position} {node : LiteralLikeNode} {ds : List Diagnostic}
    (h : refDiagnostics name env dir posAt node = Except.ok ds) :
    ¬((∃ d ∈ ds, d.code = DiagnosticCode.LocalModuleNotExist) ∧
      (∃ d ∈ ds, d.code = DiagnosticCode.RemoteModuleNotExist)) := by
  obtain ⟨m, hres, hds⟩ := refDiagnostics_ok h
  subst hds
  have key : ∀ d, d ∈ invalidModuleCheck name (rangeOfNode posAt node) node.text ++
      missingExtensionCheck name (rangeOfNode posAt node) node.text ++
      preferHTTPSCheck name (rangeOfNode posAt node) node.text ++
      existenceCheck name env (rangeOfNode posAt node) m →
      (d.code = DiagnosticCode.LocalModuleNotExist → m.remote = false) ∧
      (d.code = DiagnosticCode.RemoteModuleNotExist → m.remote = true) := by
    intro d hd
    rcases List.mem_append.mp hd with hABC | hD
    swap
    · obtain ⟨hdEq, -⟩ := mem_existenceCheck hD
      subst hdEq
      cases hm : m.remote
      · exact ⟨fun _ => rfl, fun hcode => by simp at hcode⟩
      · exact ⟨fun hcode => by simp at hcode, fun _ => rfl⟩
    rcases List.mem_append.mp hABC with hAB | hC
    swap
    · obtain ⟨hdEq, -⟩ := mem_preferHTTPSCheck hC
      subst hdEq
      constructor <;> intro hcode <;> simp at hcode
    rcases List.mem_append.mp hAB with hA | hB
    · obtain ⟨hdEq, -⟩ := mem_invalidModuleCheck hA
      subst hdEq
      constructor <;> intro hcode <;> simp at hcode
    · obtain ⟨hdEq, -⟩ := mem_missingExtensionCheck hB
      subst hdEq
      constructor <;> intro hcode <;> simp at hcode
  rintro ⟨⟨d1, hd1, hc1⟩, ⟨d2, hd2, hc2⟩⟩
  have hfalse := (key d1 hd1).1 hc1
  have htrue := (key d2 hd2).2 hc2
  rw [hfalse] at htrue
  exact absurd htrue (by decide)

/-- A successful iteration emits at most three diagnostics: the
invalid-module and prefer-https pushes are mutually exclusive (one needs a
non-remote text, the other a remote one), and the other two blocks push at
most one diagnostic each. -/
theorem refDiags_length_le_three {name dir : String} {env : ExternalServices}
    {posAt : Nat → Position} {node : LiteralLikeNode} {ds : List Diagnostic}
    (h : refDiagnostics name env dir posAt node = Except.ok ds) :
    ds.length ≤ 3 := by
  obtain ⟨m, hres, hds⟩ := refDiagnostics_ok h
  subst hds
  have l2 := length_missingExtensionCheck_le name (rangeOfNode posAt node) node.text
  have l4 := length_existenceCheck_le name env (rangeOfNode posAt node) m
  cases hrem : isRemoteModule node.text
  · rw [preferHTTPSCheck_eq_nil_of_not_remote hrem]
    have l1 := length_invalidModuleCheck_le name (rangeOfNode posAt node) node.text
    simp only [List.length_append, List.length_nil]
    omega
  · rw [invalidModuleCheck_eq_nil_of_remote hrem]
    have l3 := length_preferHTTPSCheck_le name (rangeOfNode posAt node) node.text
    simp only [List.length_append, List.length_nil]
    omega

/-- Claim C1 (counterexample).  For the document `import x from "./a.ts"` the
module node has `pos = 13` (the space before the literal is leading trivia),
`end = 22` and `text = "./a.ts"`: the plain text occupies offsets 15–20, the
quotes sit at 14 and 21.  The claim predicts a range of offsets [15, 21)
(start at the first plain-text character, end excluding the closing quote);
the code produces [14, 22). -/
theorem c1_counterexample :
    ¬(rangeStartOffset ⟨13, 22, "./a.ts"⟩ = 15 ∧
      rangeEndOffset ⟨13, 22, "./a.ts"⟩ = 21) := by
  decide

/-- Claim C1 (amended).  For every module node whose span is at least the
plain text plus the two quotes, the diagnostic range covers the quoted
literal *including* both quote characters: its start offset is
`end - (text.length + 2)` — the opening quote, one character *before* the
first plain-text character — and its end offset is the node's `end`, one
character past the closing quote. -/
theorem c1_range_covers_quoted_literal {node : LiteralLikeNode}
    (h : node.pos + (node.text.length + 2) ≤ node.«end») :
    rangeStartOffset node = node.«end» - (node.text.length + 2) ∧
    rangeEndOffset node = node.«end» := by
  unfold rangeStartOffset rangeEndOffset numberOfSpaces
  refine ⟨?_, rfl⟩
  omega

/-- Claim C1 witness: the amended theorem applied to the `"./a.ts"` node. -/
theorem c1_witness :
    13 + ("./a.ts".length + 2) ≤ 22 ∧
    (rangeStartOffset ⟨13, 22, "./a.ts"⟩ = 22 - ("./a.ts".length + 2) ∧
     rangeEndOffset ⟨13, 22, "./a.ts"⟩ = 22) :=
  ⟨by decide, c1_range_covers_quoted_literal (by decide)⟩

/-- Claim C2 (counterexample).  When the resolution service rejects, the
whole `generate` call rejects: for the reference `"./a"` the extension check
would have produced a diagnostic, but the result is the error, not a
diagnostic list — the other checks' diagnostics are lost rather than
yielded. -/
theorem c2_counterexample :
    generateRefs "deno" errorEnv "/d" posId [⟨13, 22, "./a"⟩] =
      Except.error "network error" ∧
    generateRefs "deno" errorEnv "/d" posId [⟨13, 22, "./a"⟩] ≠
      Except.ok (missingExtensionCheck "deno" (rangeOfNode posId ⟨13, 22, "./a"⟩) "./a") :=
  ⟨rfl, fun hcon => Except.noConfusion hcon⟩

/-- Claim C2 (amended).  A resolution error for a reference is not caught:
it propagates out of the loop, so the whole analysis call rejects with that
error and no diagnostics at all are produced — neither the existence
diagnostic nor those of the other checks, for this or any other
reference. -/
theorem c2_resolution_error_rejects {name dir : String} {env : ExternalServices}
    {posAt : Nat → Position} {node : LiteralLikeNode} {rest : List LiteralLikeNode}
    {e : String} (h : env.resolveModule dir node.text = Except.error e) :
    generateRefs name env dir posAt (node :: rest) = Except.error e := by
  unfold generateRefs refDiagnostics
  rw [h]

/-- Claim C2 witness: the amended theorem applied to the always-rejecting
service, with a second reference pending behind the failing one. -/
theorem c2_witness :
    errorEnv.resolveModule "/d" "./a" = Except.error "network error" ∧
    generateRefs "deno" errorEnv "/d" posId (⟨13, 22, "./a"⟩ :: [⟨30, 40, "./b.ts"⟩]) =
      Except.error "network error" :=
  ⟨rfl, c2_resolution_error_rejects rfl⟩

/-- Claim C3: for every extracted module reference whose loop iteration
succeeds, an `InvalidModule` diagnostic with severity `Error` is emitted if
and only if the specifier text matches neither `^\..+` nor `^https?://`. -/
theorem c3_invalid_specifier_iff {name dir : String} {env : ExternalServices}
    {posAt : Nat → Position} {node : LiteralLikeNode} {ds : List Diagnostic}
    (h : refDiagnostics name env dir posAt node = Except.ok ds) :
    (∃ d ∈ ds, d.code = DiagnosticCode.InvalidModule ∧
       d.severity = DiagnosticSeverity.Error) ↔
      (isRelativeModule node.text = false ∧ isRemoteModule node.text = false) :=
  (refDiags_invalid_iff h).1

/-- Claim C3 witness: the bare specifier `"foo"` matches neither pattern, so
the iff holds with both sides true. -/
theorem c3_witness :
    refDiagnostics "deno" okEnv "/d" posId ⟨0, 5, "foo"⟩ = Except.ok c3ds ∧
    ((∃ d ∈ c3ds, d.code = DiagnosticCode.InvalidModule ∧
        d.severity = DiagnosticSeverity.Error) ↔
      (isRelativeModule "foo" = false ∧ isRemoteModule "foo" = false)) :=
  ⟨rfl, c3_invalid_specifier_iff
    (show refDiagnostics "deno" okEnv "/d" posId ⟨0, 5, "foo"⟩ = Except.ok c3ds from rfl)⟩

/-- Claim C4: for every extracted module reference whose loop iteration
succeeds, a `MissingExtension` diagnostic with severity `Error` is emitted if
and only if the trailing extension matched by `\.[a-zA-Z0-9]+$` is not in
the allow-set {.ts, .tsx, .js, .jsx, .json, .wasm}; a specifier with no
trailing extension (`extensionName` yields no match) also fails the check
and gets the diagnostic. -/
theorem c4_missing_extension_iff {name dir : String} {env : ExternalServices}
    {posAt : Nat → Position} {node : LiteralLikeNode} {ds : List Diagnostic}
    (h : refDiagnostics name env dir posAt node = Except.ok ds) :
    ((∃ d ∈ ds, d.code = DiagnosticCode.MissingExtension ∧
        d.severity = DiagnosticSeverity.Error) ↔
      hasValidExtension node.text = false) ∧
    (extensionName node.text = none → hasValidExtension node.text = false) := by
  refine ⟨(refDiags_missingExtension_iff h).1, fun hnone => ?_⟩
  unfold hasValidExtension
  rw [hnone]

/-- Claim C4 witness: `"./foo"` has no trailing extension, so the
missing-extension diagnostic is emitted. -/
theorem c4_witness :
    refDiagnostics "deno" okEnv "/d" posId ⟨0, 7, "./foo"⟩ = Except.ok c4ds ∧
    (((∃ d ∈ c4ds, d.code = DiagnosticCode.MissingExtension ∧
        d.severity = DiagnosticSeverity.Error) ↔
      hasValidExtension "./foo" = false) ∧
     (extensionName "./foo" = none → hasValidExtension "./foo" = false)) :=
  ⟨rfl, c4_missing_extension_iff
    (show refDiagnostics "deno" okEnv "/d" posId ⟨0, 7, "./foo"⟩ = Except.ok c4ds from rfl)⟩

/-- Claim C5: for every extracted module reference whose loop iteration
succeeds, a `PreferHTTPS` diagnostic with severity `Warning` is emitted if
and only if the specifier is URL-like and does not start with `https://`;
in particular a non-URL-like specifier never gets it. -/
theorem c5_prefer_https_iff {name dir : String} {env : ExternalServices}
    {posAt : Nat → Position} {node : LiteralLikeNode} {ds : List Diagnostic}
    (h : refDiagnostics name env dir posAt node = Except.ok ds) :
    (∃ d ∈ ds, d.code = DiagnosticCode.PreferHTTPS ∧
       d.severity = DiagnosticSeverity.Warning) ↔
      (isRemoteModule node.text = true ∧ startsWithHttps node.text = false) :=
  (refDiags_preferHTTPS_iff h).1

/-- Claim C5 witness: `"http://x.com/a.ts"` is URL-like and insecure, so the
warning is emitted. -/
theorem c5_witness :
    refDiagnostics "deno" okEnv "/d" posId ⟨0, 20, "http://x.com/a.ts"⟩ =
      Except.ok c5ds ∧
    ((∃ d ∈ c5ds, d.code = DiagnosticCode.PreferHTTPS ∧
        d.severity = DiagnosticSeverity.Warning) ↔
      (isRemoteModule "http://x.com/a.ts" = true ∧
       startsWithHttps "http://x.com/a.ts" = false)) :=
  ⟨rfl, c5_prefer_https_iff
    (show refDiagnostics "deno" okEnv "/d" posId ⟨0, 20, "http://x.com/a.ts"⟩ =
      Except.ok c5ds from rfl)⟩

/-- Claim C6: all four checks are applied to a reference even when an
earlier check already fired: for a document whose single statement is
`import x from "./a"`, with the resolution service resolving `"./a"` to a
non-remote module whose filepath does not exist, the analysis yields exactly
two diagnostics — `MissingExtension` (Error) and `LocalModuleNotExist`
(Error). -/
theorem c6_all_checks_apply {name dir : String} {env : ExternalServices}
    {posAt : Nat → Position} {p e : Nat} {m : ResolvedModule}
    (hres : env.resolveModule dir "./a" = Except.ok m)
    (hrem : m.remote = false)
    (hfe : env.fileExists m.filepath = false) :
    generate name env dir posAt
        (TsNode.importDeclaration (some (SyntaxArg.stringLit ⟨p, e, "./a"⟩)) []) =
      Except.ok
        [⟨rangeOfNode posAt ⟨p, e, "./a"⟩,
          "Please specify valid extension name of the imported module.",
          DiagnosticSeverity.Error, DiagnosticCode.MissingExtension, name⟩,
         ⟨rangeOfNode posAt ⟨p, e, "./a"⟩,
          "Cannot found module `" ++ m.raw ++ "`.",
          DiagnosticSeverity.Error, DiagnosticCode.LocalModuleNotExist, name⟩] := by
  have hrel : isRelativeModule "./a" = true := by decide
  have hrm : isRemoteModule "./a" = false := by decide
  have hvx : hasValidExtension "./a" = false := by decide
  simp [generate, extract, extractList, nodeModule, generateRefs, refDiagnostics, hres,
        invalidModuleCheck, missingExtensionCheck, preferHTTPSCheck, existenceCheck,
        hrel, hrm, hvx, hrem, hfe]

/-- Claim C6 witness: the concrete service resolving `"./a"` to the
non-existent `/d/a`. -/
theorem c6_witness :
    missingEnv.resolveModule "/d" "./a" = Except.ok ⟨"./a", "/d/a", false⟩ ∧
    (⟨"./a", "/d/a", false⟩ : ResolvedModule).remote = false ∧
    missingEnv.fileExists "/d/a" = false ∧
    generate "deno" missingEnv "/d" posId
        (TsNode.importDeclaration (some (SyntaxArg.stringLit ⟨13, 22, "./a"⟩)) []) =
      Except.ok
        [⟨rangeOfNode posId ⟨13, 22, "./a"⟩,
          "Please specify valid extension name of the imported module.",
          DiagnosticSeverity.Error, DiagnosticCode.MissingExtension, "deno"⟩,
         ⟨rangeOfNode posId ⟨13, 22, "./a"⟩,
          "Cannot found module `" ++ "./a" ++ "`.",
          DiagnosticSeverity.Error, DiagnosticCode.LocalModuleNotExist, "deno"⟩] :=
  ⟨rfl, rfl, rfl, c6_all_checks_apply rfl rfl rfl⟩

/-- Claim C7: the static fix table yields exactly one fix descriptor for
`MissingExtension`, `PreferHTTPS`, `LocalModuleNotExist` and
`RemoteModuleNotExist`, and none for `InvalidModule`. -/
theorem c7_fix_table_coverage :
    ∀ c : DiagnosticCode, (∃ f, FixItems c = some f) ↔ c ≠ DiagnosticCode.InvalidModule := by
  intro c
  cases c <;> simp [FixItems]

/-- Claim C8: for every diagnostic that has a fix, the range passed as the
remediation command's argument is the diagnostic's range with the start
character increased by one and the end character decreased by one, so the
quotes at each end of the diagnostic's literal span are excluded. -/
theorem c8_action_range_narrowed {name uri : String} {d : Diagnostic} {f : Fix}
    (hsrc : d.source = name) (hfix : FixItems d.code = some f) :
    onCodeAction name uri [d] =
      [⟨f.title ++ " (" ++ name ++ ")", f.title, f.command, uri,
        ⟨⟨d.range.start.line, d.range.start.character + 1⟩,
         ⟨d.range.«end».line, d.range.«end».character - 1⟩⟩⟩] := by
  simp [onCodeAction, hsrc, codeActionForDiagnostic, hfix]

/-- Claim C8 witness: the diagnostic over the quoted span (0,14)–(0,22)
produces a command whose range argument is (0,15)–(0,21). -/
theorem c8_witness :
    c8diag.source = "deno" ∧
    FixItems c8diag.code =
      some ⟨"Add `.ts` extension.", "deno._add_missing_extension"⟩ ∧
    onCodeAction "deno" "file:///d/x.ts" [c8diag] =
      [⟨"Add `.ts` extension." ++ " (" ++ "deno" ++ ")", "Add `.ts` extension.",
        "deno._add_missing_extension", "file:///d/x.ts", ⟨⟨0, 14 + 1⟩, ⟨0, 22 - 1⟩⟩⟩] :=
  ⟨rfl, rfl,
    c8_action_range_narrowed (show c8diag.source = "deno" from rfl)
      (show FixItems c8diag.code =
        some ⟨"Add `.ts` extension.", "deno._add_missing_extension"⟩ from rfl)⟩

/-- Claim C9: a plain `require("...")` call is not one of the four
recognized reference syntaxes — its callee is not the `import` keyword — so
a document containing only such a call yields zero extracted references and
zero diagnostics, whatever the required string is. -/
theorem c9_require_ignored (n : LiteralLikeNode) (name dir : String)
    (env : ExternalServices) (posAt : Nat → Position) :
    extract (TsNode.otherNode [TsNode.callExpression false [SyntaxArg.stringLit n] []]) = [] ∧
    generate name env dir posAt
        (TsNode.otherNode [TsNode.callExpression false [SyntaxArg.stringLit n] []]) =
      Except.ok [] := by
  constructor
  · simp [extract, extractList, nodeModule]
  · simp [generate, generateRefs, extract, extractList, nodeModule]

/-- Claim C10: within one reference's diagnostics, `InvalidModule` and
`PreferHTTPS` never both occur (one requires a non-remote specifier, the
other a remote one), at most one of the two not-found codes occurs, and the
reference yields at most three diagnostics. -/
theorem c10_per_reference_bounds {name dir : String} {env : ExternalServices}
    {posAt : Nat → Position} {node : LiteralLikeNode} {ds : List Diagnostic}
    (h : refDiagnostics name env dir posAt node = Except.ok ds) :
    ¬((∃ d ∈ ds, d.code = DiagnosticCode.InvalidModule) ∧
      (∃ d ∈ ds, d.code = DiagnosticCode.PreferHTTPS)) ∧
    ¬((∃ d ∈ ds, d.code = DiagnosticCode.LocalModuleNotExist) ∧
      (∃ d ∈ ds, d.code = DiagnosticCode.RemoteModuleNotExist)) ∧
    ds.length ≤ 3 := by
  refine ⟨?_, refDiags_not_both_notFound h, refDiags_length_le_three h⟩
  rintro ⟨hInv, hPref⟩
  have h1 := ((refDiags_invalid_iff h).2).mp hInv
  have h2 := ((refDiags_preferHTTPS_iff h).2).mp hPref
  rw [h1.2] at h2
  simp at h2

/-- Claim C10 witness: the specifier `"x"` with an unresolvable file mounts
the maximal non-conflicting set of diagnostics. -/
theorem c10_witness :
    refDiagnostics "deno" missingEnv "/d" posId ⟨0, 3, "x"⟩ = Except.ok c10ds ∧
    (¬((∃ d ∈ c10ds, d.code = DiagnosticCode.InvalidModule) ∧
       (∃ d ∈ c10ds, d.code = DiagnosticCode.PreferHTTPS)) ∧
     ¬((∃ d ∈ c10ds, d.code = DiagnosticCode.LocalModuleNotExist) ∧
       (∃ d ∈ c10ds, d.code = DiagnosticCode.RemoteModuleNotExist)) ∧
     c10ds.length ≤ 3) :=
  ⟨rfl, c10_per_reference_bounds
    (show refDiagnostics "deno" missingEnv "/d" posId ⟨0, 3, "x"⟩ =
      Except.ok c10ds from rfl)⟩

end VscodeDeno
